import Mathlib

/-!
Verification development for the knowledge repository's
retrieval-augmented ingestion/search pipeline.

The Python source is shallowly embedded:

* Python strings are `List Char` where character-level behaviour matters
  (splitting on whitespace, truncation, `rsplit`), and `String` where the
  text is opaque (payloads, paths, prompts).
* `str.split()` (no argument) is `pySplit`; `range(start, stop, step)`
  with `start = 0` is `pyRange0`, returning `none` for the `ValueError`
  raised on a zero step.
* Vectors are `List ℚ`; only their lengths and identities matter to the
  properties below, never floating-point rounding.
* The Qdrant collection is a sized list of points; `upsert` replaces the
  point with the same id.  Fallible operations return `Bool × state`
  exactly where the Python returns a success flag.
-/

namespace Knowledge

/-! ## Chunker: `modules/chat/utils.py::chunk_text`
(the same loop is inlined in `modules/chat.py::ingest_transcripts` and
`modules/chat/chat_ui.py::ChatUI.ingest_documents`). -/

/-- Helper for `pySplit`: `acc` holds the characters of the word currently
being read, in reverse order. -/
def pySplitAux (acc : List Char) : List Char → List (List Char)
  | [] => if acc = [] then [] else [acc.reverse]
  | c :: cs =>
    if c.isWhitespace then
      if acc = [] then pySplitAux [] cs else acc.reverse :: pySplitAux [] cs
    else pySplitAux (c :: acc) cs

/-- Python `str.split()`: split on runs of whitespace, discarding empties. -/
def pySplit (s : List Char) : List (List Char) :=
  pySplitAux [] s

/-- Python `range(0, stop, step)` as the list of produced indices;
`none` models the `ValueError` raised when `step = 0`.  A negative step
with `stop ≥ 0` produces no indices. -/
def pyRange0 (stop : ℕ) (step : ℤ) : Option (List ℕ) :=
  if step = 0 then none
  else if step < 0 then some []
  else some ((List.range ((stop + step.toNat - 1) / step.toNat)).map
    (fun k => k * step.toNat))

/-- Python `' '.join(ws)`. -/
def joinWords (ws : List (List Char)) : List Char :=
  List.intercalate [' '] ws

/-- `chunk_text(text, chunk_size=300, overlap=50)` from
`modules/chat/utils.py`: split into words, then for each start index
produced by `range(0, len(words), chunk_size - overlap)` emit
`' '.join(words[i:i+chunk_size])`.  `none` is the `ValueError` raised by
`range` on a zero step. -/
def chunk_text (text : List Char) (chunk_size : ℕ := 300) (overlap : ℕ := 50) :
    Option (List (List Char)) :=
  let words := pySplit text
  match pyRange0 words.length ((chunk_size : ℤ) - (overlap : ℤ)) with
  | none => none
  | some starts =>
      some (starts.map (fun i => joinWords ((words.drop i).take chunk_size)))

/-- The chunk-count formula stated in the spec:
`ceil((len(words) - overlap) / (chunk_size - overlap))`, to be compared
with the count the code actually produces. -/
def chunkCountSpec (nWords chunk_size overlap : ℕ) : ℤ :=
  ⌈((nWords : ℚ) - (overlap : ℚ)) / ((chunk_size : ℚ) - (overlap : ℚ))⌉

/-! ## VectorStore: `modules/chat/qdrant_db.py::QdrantDB`

The embedded Qdrant database is a collection with a fixed vector size and
a list of points keyed by id.  `client.upsert` replaces the point with the
same id and raises on a vector whose length differs from the collection
size; callers catch that exception, leaving the state unchanged. -/

/-- The persisted point: `models.PointStruct` with an id, a payload of text and source, and a vector. -/
structure PointStruct where
  id : ℤ
  text : List Char
  source : String
  vector : List ℚ
deriving DecidableEq

/-- A Qdrant collection: configured vector size plus stored points. -/
structure Collection where
  size : ℕ
  points : List PointStruct
deriving DecidableEq

/-- `client.count(collection_name=...)`. -/
def pointCount (c : Collection) : ℕ :=
  c.points.length

/-- The ids of the stored points. -/
def pointIds (c : Collection) : List ℤ :=
  c.points.map PointStruct.id

/-- Qdrant upsert semantics: overwrite the point with the same id, or
append the point if its id is new. -/
def upsertPoint (c : Collection) (p : PointStruct) : Collection :=
  ⟨c.size, c.points.filter (fun q => q.id != p.id) ++ [p]⟩

/-- `client.upsert` as callers that catch exceptions see it: a vector of
the wrong length raises inside the client, so the collection is unchanged;
otherwise the point is upserted. -/
def clientUpsert (c : Collection) (p : PointStruct) : Collection :=
  if p.vector.length = c.size then upsertPoint c p else c

/-- `QdrantDB.store_embedding(text, embedding, source, point_id)`:
`False` when the client is missing or the embedding's dimension differs
from the collection's; otherwise upserts and returns `True`. -/
def store_embedding (db : Option Collection) (text : List Char)
    (embedding : List ℚ) (source : String) (point_id : ℤ) :
    Bool × Option Collection :=
  match db with
  | none => (false, none)
  | some c =>
    if embedding.length ≠ c.size then (false, some c)
    else (true, some (upsertPoint c ⟨point_id, text, source, embedding⟩))

/-- The on-disk Qdrant state seen by `QdrantDB._initialize_client`:
a possible stale `.lock` file plus the named collections. -/
structure QdrantDisk where
  lockExists : Bool
  collections : List (String × Collection)
deriving DecidableEq

/-- `client.recreate_collection(name, vectors_config=...)`: drops the
collection with that name, if any, and creates a fresh empty one. -/
def recreate_collection (cols : List (String × Collection)) (name : String)
    (size : ℕ) : List (String × Collection) :=
  (name, ⟨size, []⟩) :: cols.filter (fun e => e.1 != name)

/-- `QdrantDB._initialize_client`: removes a stale lock file, opens the
client and then unconditionally calls
`recreate_collection("transcripts", size=384)`. -/
def initialize_client (s : QdrantDisk) : QdrantDisk :=
  { lockExists := false
    collections := recreate_collection s.collections "transcripts" 384 }

/-- `client.get_collection(name)`. -/
def getCollection (s : QdrantDisk) (name : String) : Option Collection :=
  (s.collections.find? (fun e => e.1 == name)).map Prod.snd

/-- `QdrantDB.clear_collection`: recreates `"transcripts"` at size 384. -/
def clear_collection (s : QdrantDisk) : QdrantDisk :=
  { s with collections := recreate_collection s.collections "transcripts" 384 }

/-! ## Ingestion: `modules/chat.py::ingest_transcripts`

Embedding happens through a deterministic in-process model
(`get_embeddings` is a pure function of the text for a fixed loaded
model), passed as a parameter `embed`; a chunk whose embedding fails
(`None`) is skipped.  Python's `hash` of a string is salted per process
(`PYTHONHASHSEED`), so the hash used in the point id — the Python `hash`
of the file path, an underscore and the chunk index — is also a parameter: each process invocation supplies its own `strHash`. -/

/-- The point id from `modules/chat.py` (and identically
`modules/chat/chat_ui.py`): the Python `hash` of the string
`file_path + "_" + str(i)`, with the process's string-hash function
abstracted as `strHash`. -/
def pointIdChat (strHash : String → ℤ) (file_path : String) (i : ℕ) : ℤ :=
  strHash (file_path ++ "_" ++ toString i)

/-- `point_id = len(ingested_files) + results["successful"] + 1` from
`robust_batch_ingest.py::run_robust_ingest`: a running counter over the
ingestion history, not a function of the source file at all. -/
def pointIdRobust (numIngested numSuccessful : ℕ) : ℤ :=
  (numIngested : ℤ) + (numSuccessful : ℤ) + 1

/-- One iteration of the chunk loop in `ingest_transcripts`: embed the
chunk (skip it on failure), then `client.upsert` the point; an exception
from the upsert (wrong dimension) is caught and the chunk skipped. -/
def ingestChunkStep (strHash : String → ℤ)
    (embed : List Char → Option (List ℚ)) (file_path : String)
    (c : Collection) (ic : ℕ × List Char) : Collection :=
  match embed ic.2 with
  | none => c
  | some e =>
      clientUpsert c ⟨pointIdChat strHash file_path ic.1, ic.2, file_path, e⟩

/-- Per-file processing in `ingest_transcripts`: split into 300/50 chunks
and run the chunk loop over `enumerate(chunks)`. -/
def ingestFile (strHash : String → ℤ) (embed : List Char → Option (List ℚ))
    (c : Collection) (file_path : String) (content : List Char) : Collection :=
  match chunk_text content 300 50 with
  | none => c
  | some chunks => chunks.enum.foldl (ingestChunkStep strHash embed file_path) c

/-- `ingest_transcripts`: process every transcript file in order; `files`
pairs each file path with its content. -/
def ingest_transcripts (strHash : String → ℤ)
    (embed : List Char → Option (List ℚ)) (files : List (String × List Char))
    (c : Collection) : Collection :=
  files.foldl (fun acc f => ingestFile strHash embed acc f.1 f.2) c

/-- `robust_batch_ingest.py::run_robust_ingest`, as far as it executes:
it constructs `QdrantDB(qdrant_path)` — whose `_initialize_client`
recreates the collection — and then raises `AttributeError` at
`qdrant_db.get_ingested_files()` (line 177), because `QdrantDB` defines no
such method.  The state it leaves behind is therefore the freshly
recreated empty collection, whatever was stored before. -/
def run_robust_ingest (disk : QdrantDisk) : QdrantDisk :=
  initialize_client disk

/-- The set of ids stored in a collection. -/
def idFinset (c : Collection) : Finset ℤ :=
  (c.points.map PointStruct.id).toFinset

/-- The ids a run of the chunk loop inserts: one per chunk whose
embedding succeeds with the collection's dimension `sz`. -/
def chunkIds (strHash : String → ℤ) (embed : List Char → Option (List ℚ))
    (file_path : String) (sz : ℕ) (pairs : List (ℕ × List Char)) : Finset ℤ :=
  (pairs.filterMap (fun ic =>
    match embed ic.2 with
    | none => none
    | some e =>
        if e.length = sz then some (pointIdChat strHash file_path ic.1)
        else none)).toFinset

/-- The ids a run of `ingestFile` inserts. -/
def fileIds (strHash : String → ℤ) (embed : List Char → Option (List ℚ))
    (sz : ℕ) (f : String × List Char) : Finset ℤ :=
  match chunk_text f.2 300 50 with
  | none => ∅
  | some chunks => chunkIds strHash embed f.1 sz chunks.enum

/-- The ids a run of `ingest_transcripts` inserts. -/
def filesIds (strHash : String → ℤ) (embed : List Char → Option (List ℚ))
    (sz : ℕ) (files : List (String × List Char)) : Finset ℤ :=
  files.foldr (fun f acc => fileIds strHash embed sz f ∪ acc) ∅

/-! ## Embedder retry: `robust_batch_ingest.py::ultra_robust_embedding`

Each HTTP attempt's observable outcome is supplied by an oracle `oc`
(a function of the truncated request text and the attempt index), and the
random jitter amounts by `jitterAmt`; the sleeps between attempts do not
affect the returned values and are not modelled. -/

/-- What one `requests.post` attempt can produce: a timeout, any other
exception (connection error, non-2xx via `raise_for_status`, bad JSON), or
a 2xx response whose `embedding` field is the given list (`[]` models a
missing or empty field, which Python's `not embedding` treats alike). -/
inductive EmbedOutcome where
  | timeout : EmbedOutcome
  | error : EmbedOutcome
  | response (embedding : List ℚ) : EmbedOutcome
deriving DecidableEq

/-- `MAX_TEXT_LENGTH` from `ultra_robust_embedding`. -/
def MAX_TEXT_LENGTH : ℕ := 5000

/-- The `for attempt in range(max_retries)` loop of
`ultra_robust_embedding`, over the remaining attempt indices.  Attempt `k`
uses timeout `base_timeout * backoff_factor ^ k + jitterAmt k` (the code's
`current_timeout + jitter_amount` with
`jitter_amount = random.uniform(0, jitter * current_timeout)`).  A
response with an empty embedding or one whose length differs from 768 is
treated as a failed attempt.  Returns the embedding, if any, and the log
of attempts as (adjusted timeout, outcome) pairs. -/
def urLoop (oc : ℕ → EmbedOutcome) (jitterAmt : ℕ → ℚ)
    (base_timeout backoff_factor : ℚ) :
    List ℕ → Option (List ℚ) × List (ℚ × EmbedOutcome)
  | [] => (none, [])
  | k :: ks =>
    let adjusted := base_timeout * backoff_factor ^ k + jitterAmt k
    match oc k with
    | .response v =>
        if v = [] then
          let r := urLoop oc jitterAmt base_timeout backoff_factor ks
          (r.1, (adjusted, EmbedOutcome.response v) :: r.2)
        else if v.length ≠ 768 then
          let r := urLoop oc jitterAmt base_timeout backoff_factor ks
          (r.1, (adjusted, EmbedOutcome.response v) :: r.2)
        else (some v, [(adjusted, EmbedOutcome.response v)])
    | o =>
        let r := urLoop oc jitterAmt base_timeout backoff_factor ks
        (r.1, (adjusted, o) :: r.2)

/-- `ultra_robust_embedding(text, max_retries=5, base_timeout=90,
backoff_factor=1.5, jitter=0.2)`: truncate the text to
`MAX_TEXT_LENGTH`, then retry the embedding request over
`range(max_retries)`. -/
def ultra_robust_embedding (text : List Char)
    (oc : List Char → ℕ → EmbedOutcome) (jitterAmt : ℕ → ℚ)
    (max_retries : ℕ := 5) (base_timeout : ℚ := 90)
    (backoff_factor : ℚ := 3 / 2) :
    Option (List ℚ) × List (ℚ × EmbedOutcome) :=
  urLoop (oc (text.take MAX_TEXT_LENGTH)) jitterAmt base_timeout
    backoff_factor (List.range max_retries)

/-! ## RetrievalQA: `modules/chat.py::generate_response` and
`modules/chat/chat_ui.py::ChatUI.generate_response`

The query embedding (`get_embeddings(prompt)`) and the vector-store search
results are inputs; the downstream LLM call (`generate_with_phi` /
`model_manager.generate_response`) is a function parameter. -/

/-- One search result as the query paths consume it:
a score plus a payload holding text and source. -/
structure SearchHit where
  score : ℚ
  text : String
  source : String
deriving DecidableEq

/-- `os.path.basename`: the suffix after the last `'/'`. -/
def pyBasename (p : String) : String :=
  ((p.toList.reverse.takeWhile (fun c => c != '/')).reverse).asString

/-- The prompt `chat.py::generate_response` builds: the literal
`Context: `, the context truncated to 500 characters, `...`, the
question, the instruction and the joined sources. -/
def pyFullPrompt (prompt ctx sourcesJoined : String) : String :=
  "Context: " ++ ctx.take 500 ++ "...\n\nQuestion: " ++ prompt ++
    "\n\nPlease provide a brief answer based on the context. Sources: " ++
    sourcesJoined ++ "\n\nAnswer: "

/-- The response clean-up in `chat.py::generate_response`: keep what
follows the last `"Context:"` and `"Answer:"` and what precedes the first
`"Sources:"` (Python's conditional `split(...)[-1]` / `split(...)[0]`,
which are the identity when the marker is absent), strip, and append the
source attribution. -/
def pyCleanupAndAttach (sourcesJoined response : String) : String :=
  let r1 := (response.splitOn "Context:").getLastD response
  let r2 := (r1.splitOn "Answer:").getLastD r1
  let r3 := (r2.splitOn "Sources:").headD r2
  r3.trim ++ "\n\nSources: " ++ sourcesJoined

/-- `chat.py::generate_response(prompt, client)`: error string when the
query embedding is `None`; otherwise build the context from all search
hits (chat.py's search has no score threshold), call the LLM `phi`, clean
up and attach sources.  There is no "no results" branch: an empty hit list
flows into the same prompt construction with an empty context. -/
def generate_response_py (prompt : String) (embed : Option (List ℚ))
    (hits : List SearchHit) (phi : String → String) : String :=
  match embed with
  | none => "Error: Could not generate embeddings"
  | some _ =>
    let sourcesJoined :=
      String.intercalate ", " (hits.map (fun h => pyBasename h.source))
    pyCleanupAndAttach sourcesJoined
      (phi (pyFullPrompt prompt
        (String.intercalate " " (hits.map SearchHit.text)) sourcesJoined))

/-- `ChatUI.generate_response(prompt, max_tokens, temperature)`: a fixed
error string when the query embedding fails (`None` or empty, Python's
`if not prompt_embedding`); a fixed "no relevant information" string when
the search returns nothing; otherwise sort hits by descending score, take
3, and build the answer from the LLM `llm`, appending deduplicated
non-empty source basenames.  (Python iterates a `set` in unspecified
order; the model keeps a duplicate-free list.) -/
def generate_response_ui (prompt : String) (embed : Option (List ℚ))
    (hits : List SearchHit) (llm : String → String) : String :=
  match embed with
  | none => "Error: Could not process your question"
  | some v =>
    if v = [] then "Error: Could not process your question"
    else if hits = [] then "No relevant information found in the documents."
    else
      let top := (hits.mergeSort (fun a b => decide (b.score ≤ a.score))).take 3
      let sources :=
        ((top.map (fun h => pyBasename h.source)).filter (fun s => s != "")).dedup
      let full_prompt := "Based on this transcript content:\n\n" ++
        (String.intercalate " " (top.map SearchHit.text)).take 1000 ++
        "...\n\nQuestion: " ++ prompt ++
        "\n\nProvide a direct answer using only the information from the transcript content."
      let response := llm full_prompt
      if sources = [] then response
      else response ++ "\n\nSources: " ++ String.intercalate ", " sources

/-! ## Context formatting:
`modules/chat/context_processor.py::ContextProcessor.format_context` -/

/-- The separator `"\n---\n"` joined between context texts. -/
def ctxSep : List Char := ['\n', '-', '-', '-', '\n']

/-- Python `s.rsplit(' ', 1)[0]`: everything before the last space, or the
whole string when it contains no space. -/
def pyRsplitSpaceHead (t : List Char) : List Char :=
  if ' ' ∈ t then ((t.reverse.dropWhile (fun c => c != ' ')).tail).reverse
  else t

/-- `ContextProcessor.format_context(context_texts, max_length=1500)`:
join with `"\n---\n"`; if longer than `max_length`, keep the first
`max_length` characters, cut back to the last space, and append `"..."`. -/
def format_context (context_texts : List (List Char))
    (max_length : ℕ := 1500) : List Char :=
  let formatted := List.intercalate ctxSep context_texts
  if max_length < formatted.length then
    pyRsplitSpaceHead (formatted.take max_length) ++ ['.', '.', '.']
  else formatted

/-! ### Basic chunker lemmas -/

theorem pySplitAux_eq_nil_iff (s : List Char) :
    ∀ acc, pySplitAux acc s = [] ↔ (acc = [] ∧ ∀ c ∈ s, c.isWhitespace) := by
  induction s with
  | nil =>
      intro acc
      by_cases h : acc = [] <;> simp [pySplitAux, h]
  | cons c cs ih =>
      intro acc
      by_cases hw : c.isWhitespace
      · by_cases h : acc = [] <;>
          simp [pySplitAux, hw, h, ih]
      · simp [pySplitAux, hw, ih]

theorem pySplit_eq_nil_iff (s : List Char) :
    pySplit s = [] ↔ ∀ c ∈ s, c.isWhitespace := by
  simpa using pySplitAux_eq_nil_iff s []

/-- When `overlap < chunk_size`, the computed chunks: one window of
`chunk_size` words for each start index `k * (chunk_size - overlap)`,
`⌈len(words) / (chunk_size - overlap)⌉` windows in total. -/
theorem chunk_text_eq_of_lt (text : List Char) (chunk_size overlap : ℕ)
    (h : overlap < chunk_size) :
    chunk_text text chunk_size overlap =
      some ((List.range
          (((pySplit text).length + (chunk_size - overlap) - 1) /
            (chunk_size - overlap))).map
        (fun k => joinWords
          (((pySplit text).drop (k * (chunk_size - overlap))).take chunk_size))) := by
  have h0 : ((chunk_size : ℤ) - (overlap : ℤ)) ≠ 0 := by omega
  have h1 : ¬ ((chunk_size : ℤ) - (overlap : ℤ)) < 0 := by omega
  have h2 : ((chunk_size : ℤ) - (overlap : ℤ)).toNat = chunk_size - overlap := by
    omega
  simp only [chunk_text, pyRange0, h0, h1, if_false, if_neg h0, h2]
  simp [List.map_map, Function.comp]

/-- C10: `chunk_text` (at its default parameters) returns the empty list
iff the input text contains no non-whitespace character; any text with at
least one word yields at least one chunk. -/
theorem chunk_text_nil_iff_whitespace (text : List Char) :
    chunk_text text 300 50 = some [] ↔ ∀ c ∈ text, c.isWhitespace := by
  rw [chunk_text_eq_of_lt text 300 50 (by norm_num)]
  rw [← pySplit_eq_nil_iff]
  constructor
  · intro h
    have hrange : ((pySplit text).length + 249) / 250 = 0 := by
      by_contra hne
      have := List.length_map
        (List.range (((pySplit text).length + (300 - 50) - 1) / (300 - 50)))
        (fun k => joinWords
          (((pySplit text).drop (k * (300 - 50))).take 300))
      simp only [Option.some_inj] at h
      rw [h] at this
      simp only [List.length_nil, List.length_range] at this
      omega
    have : (pySplit text).length = 0 := by omega
    exact List.eq_nil_of_length_eq_zero this
  · intro h
    rw [h]
    simp

/-- C5 (amended): with `overlap = chunk_size` the chunker fails fast with
a `ValueError` from `range` (step 0, modelled as `none`); with
`overlap > chunk_size` it silently returns an empty chunk list instead of
signalling an error. -/
theorem chunk_text_overlap_ge (text : List Char) (chunk_size overlap : ℕ) :
    (overlap = chunk_size → chunk_text text chunk_size overlap = none) ∧
    (chunk_size < overlap → chunk_text text chunk_size overlap = some []) := by
  constructor
  · intro h
    subst h
    simp [chunk_text, pyRange0]
  · intro h
    have h0 : ((chunk_size : ℤ) - (overlap : ℤ)) ≠ 0 := by omega
    have h1 : ((chunk_size : ℤ) - (overlap : ℤ)) < 0 := by omega
    simp [chunk_text, pyRange0, h0, h1]

/-- Witness for `chunk_text_overlap_ge` at chunk size 3, overlaps 3, 4. -/
theorem chunk_text_overlap_ge_witness :
    chunk_text "a".toList 3 3 = none ∧ chunk_text "a".toList 3 4 = some [] :=
  ⟨(chunk_text_overlap_ge "a".toList 3 3).1 rfl,
   (chunk_text_overlap_ge "a".toList 3 4).2 (by norm_num)⟩

/-- C5 counterexample: on the one-word text `"a"` with
`overlap = 4 > 3 = chunk_size`, `chunk_text` neither raises nor diverges:
it silently returns the degenerate empty chunk list, although the text has
a word to cover. -/
theorem chunk_text_silent_degenerate_counterexample :
    chunk_text "a".toList 3 4 = some [] ∧ pySplit "a".toList ≠ [] := by
  decide

/-! ### C4: chunk coverage and chunk count -/

theorem nat_le_ceilDiv_mul (n s : ℕ) (hs : 0 < s) :
    n ≤ ((n + s - 1) / s) * s := by
  have hmod := Nat.div_add_mod (n + s - 1) s
  have hlt := Nat.mod_lt (n + s - 1) hs
  have hcomm : ((n + s - 1) / s) * s = s * ((n + s - 1) / s) := Nat.mul_comm _ _
  omega

theorem nat_lt_div_mul_add (j s : ℕ) (hs : 0 < s) : j < (j / s) * s + s := by
  have hmod := Nat.div_add_mod j s
  have hlt := Nat.mod_lt j hs
  have hcomm : (j / s) * s = s * (j / s) := Nat.mul_comm _ _
  omega

/-- Key arithmetic fact: the number of windows `(n + s - 1) / s` produced
by the code is exactly `⌈n / s⌉`. -/
theorem natCeilDiv_eq_ceil (n s : ℕ) (hs : 0 < s) :
    (((n + s - 1) / s : ℕ) : ℤ) = ⌈(n : ℚ) / (s : ℚ)⌉ := by
  have hsQ : (0 : ℚ) < (s : ℚ) := by exact_mod_cast hs
  have h1 : n ≤ ((n + s - 1) / s) * s := nat_le_ceilDiv_mul n s hs
  have h2 : ((n + s - 1) / s) * s + 1 ≤ n + s := by
    have := Nat.div_mul_le_self (n + s - 1) s
    omega
  set L : ℕ := (n + s - 1) / s with hL
  symm
  rw [Int.ceil_eq_iff]
  constructor
  · rw [lt_div_iff₀ hsQ]
    have hQ : (L : ℚ) * s + 1 ≤ (n : ℚ) + (s : ℚ) := by exact_mod_cast h2
    have hs1 : (1 : ℚ) ≤ (s : ℚ) := by exact_mod_cast hs
    push_cast
    nlinarith
  · rw [div_le_iff₀ hsQ]
    exact_mod_cast h1

/-- C4 (amended): for `overlap < chunk_size` the chunks cover every word
of the text (every word index lies in some emitted window), and when
additionally `2 * overlap ≤ chunk_size` the number of chunks is within one
of the spec's formula `ceil((len(words) - overlap) / (chunk_size - overlap))`.
(The count part genuinely needs `2 * overlap ≤ chunk_size`; see the
counterexample below.) -/
theorem chunk_text_coverage_and_count (text : List Char)
    (chunk_size overlap : ℕ) (h : overlap < chunk_size) :
    (∀ chunks, chunk_text text chunk_size overlap = some chunks →
      ∀ j < (pySplit text).length, ∃ i, i ≤ j ∧ j < i + chunk_size ∧
        joinWords (((pySplit text).drop i).take chunk_size) ∈ chunks) ∧
    (2 * overlap ≤ chunk_size →
      ∀ chunks, chunk_text text chunk_size overlap = some chunks →
        |(chunks.length : ℤ) -
          chunkCountSpec (pySplit text).length chunk_size overlap| ≤ 1) := by
  set n := (pySplit text).length with hn
  set s := chunk_size - overlap with hs
  have hs0 : 0 < s := by omega
  have hcode := chunk_text_eq_of_lt text chunk_size overlap h
  have hM1 : n ≤ ((n + s - 1) / s) * s := nat_le_ceilDiv_mul n s hs0
  constructor
  · intro chunks hchunks j hj
    rw [hcode] at hchunks
    set M := (n + s - 1) / s with hM
    refine ⟨(j / s) * s, Nat.div_mul_le_self j s, ?_, ?_⟩
    · have := nat_lt_div_mul_add j s hs0
      omega
    · rcases Option.some_inj.mp hchunks with rfl
      refine List.mem_map_of_mem _ ?_
      rw [List.mem_range]
      by_contra hk
      push_neg at hk
      have : M * s ≤ (j / s) * s := Nat.mul_le_mul_right s hk
      have : j < (j / s) * s := by omega
      have := Nat.div_mul_le_self j s
      omega
  · intro h2 chunks hchunks
    rw [hcode] at hchunks
    have hlenN : chunks.length = (n + s - 1) / s := by
      rw [← Option.some_inj.mp hchunks]
      simp
    have hlen : (chunks.length : ℤ) = ⌈(n : ℚ) / (s : ℚ)⌉ := by
      rw [hlenN]
      exact natCeilDiv_eq_ceil n s hs0
    have hsQ : (0 : ℚ) < (s : ℚ) := by exact_mod_cast hs0
    have hco : ((s : ℕ) : ℚ) = (chunk_size : ℚ) - (overlap : ℚ) := by
      rw [hs]
      exact_mod_cast Nat.cast_sub (le_of_lt h)
    have hoQ : (overlap : ℚ) ≤ (s : ℚ) := by
      have hos : overlap ≤ s := by omega
      exact_mod_cast hos
    unfold chunkCountSpec
    rw [← hco]
    have hle1 : ⌈((n : ℚ) - overlap) / (s : ℚ)⌉ ≤ ⌈(n : ℚ) / (s : ℚ)⌉ := by
      apply Int.ceil_le_ceil
      apply (div_le_div_iff_of_pos_right hsQ).mpr
      linarith
    have hle2 : ⌈(n : ℚ) / (s : ℚ)⌉ ≤ ⌈((n : ℚ) - overlap) / (s : ℚ)⌉ + 1 := by
      have hstep : (n : ℚ) / s ≤ ((n : ℚ) - overlap) / s + 1 := by
        have hrw : ((n : ℚ) - overlap) / s + 1 = ((n : ℚ) - overlap + s) / s := by
          field_simp
        rw [hrw]
        apply (div_le_div_iff_of_pos_right hsQ).mpr
        linarith
      calc ⌈(n : ℚ) / s⌉ ≤ ⌈((n : ℚ) - overlap) / s + 1⌉ := Int.ceil_le_ceil hstep
        _ = ⌈((n : ℚ) - overlap) / s⌉ + 1 := Int.ceil_add_one _
    rw [hlen, abs_le]
    omega

/-- Witness for `chunk_text_coverage_and_count` on the text `"a b"` at
the default parameters 300/50. -/
theorem chunk_text_coverage_and_count_witness :
    (∃ i, i ≤ 0 ∧ 0 < i + 300 ∧
        joinWords (((pySplit "a b".toList).drop i).take 300) ∈
          [['a', ' ', 'b']]) ∧
    |(([['a', ' ', 'b']] : List (List Char)).length : ℤ) -
        chunkCountSpec (pySplit "a b".toList).length 300 50| ≤ 1 :=
  ⟨(chunk_text_coverage_and_count "a b".toList 300 50 (by norm_num)).1
      [['a', ' ', 'b']] (by decide) 0 (by decide),
   (chunk_text_coverage_and_count "a b".toList 300 50 (by norm_num)).2
      (by norm_num) [['a', ' ', 'b']] (by decide)⟩

/-- C4 counterexample: for the three-word text `"a b c"` with
`chunk_size = 3` and `overlap = 2` (so `overlap < chunk_size`), the code
produces 3 chunks while the spec's formula gives
`ceil((3 - 2) / (3 - 2)) = 1`, an error of 2 — beyond any off-by-one
tolerance. -/
theorem chunk_text_count_formula_counterexample :
    (chunk_text "a b c".toList 3 2).map List.length = some 3 ∧
    ¬ |(3 : ℤ) - chunkCountSpec (pySplit "a b c".toList).length 3 2| ≤ 1 := by
  constructor
  · decide
  · have hlen3 : (pySplit "a b c".toList).length = 3 := by decide
    rw [hlen3]
    unfold chunkCountSpec
    norm_num


/-! ### C1: initialization destroys stored points -/

/-- C1: contrary to the claim that initialization opens the existing
collection and preserves stored points, `_initialize_client` calls
`recreate_collection` unconditionally, so a collection holding one point
before re-initialization holds zero points afterwards. -/
theorem initialize_client_wipes_points :
    (getCollection
        ⟨true, [("transcripts", ⟨384, [⟨1, ['h', 'i'], "a.txt", [0]⟩]⟩)]⟩
        "transcripts").map pointCount = some 1 ∧
    (getCollection (initialize_client
        ⟨true, [("transcripts", ⟨384, [⟨1, ['h', 'i'], "a.txt", [0]⟩]⟩)]⟩)
        "transcripts").map pointCount = some 0 := by
  decide

/-! ### C7: upsert with a mismatched vector dimension -/

/-- C7: `store_embedding` with an embedding whose length differs from the
collection's configured size returns `False` and leaves the collection —
in particular its point count — unchanged. -/
theorem store_embedding_dim_mismatch (c : Collection) (text : List Char)
    (e : List ℚ) (source : String) (point_id : ℤ)
    (h : e.length ≠ c.size) :
    (store_embedding (some c) text e source point_id).1 = false ∧
    (store_embedding (some c) text e source point_id).2 = some c ∧
    ((store_embedding (some c) text e source point_id).2.map pointCount) =
      some (pointCount c) := by
  simp [store_embedding, h]

/-- Witness for `store_embedding_dim_mismatch`: a 1-dimensional vector
against a 384-dimensional collection. -/
theorem store_embedding_dim_mismatch_witness :
    (store_embedding (some ⟨384, []⟩) ['x'] [(0 : ℚ)] "a.txt" 7).1 = false ∧
    (store_embedding (some ⟨384, []⟩) ['x'] [(0 : ℚ)] "a.txt" 7).2 =
      some ⟨384, []⟩ ∧
    ((store_embedding (some ⟨384, []⟩) ['x'] [(0 : ℚ)] "a.txt" 7).2.map
      pointCount) = some (pointCount ⟨384, []⟩) :=
  store_embedding_dim_mismatch ⟨384, []⟩ ['x'] [(0 : ℚ)] "a.txt" 7 (by decide)

/-! ### C2: re-running ingestion does not change the point count -/

theorem size_upsertPoint (c : Collection) (p : PointStruct) :
    (upsertPoint c p).size = c.size := rfl

theorem size_clientUpsert (c : Collection) (p : PointStruct) :
    (clientUpsert c p).size = c.size := by
  by_cases hc : p.vector.length = c.size <;> simp [clientUpsert, hc, upsertPoint]

theorem nodup_pointIds_upsertPoint (c : Collection) (p : PointStruct)
    (h : (pointIds c).Nodup) : (pointIds (upsertPoint c p)).Nodup := by
  have hsub : ((c.points.filter (fun q => q.id != p.id)).map
      PointStruct.id).Sublist (c.points.map PointStruct.id) :=
    (List.filter_sublist _).map _
  have h1 : ((c.points.filter (fun q => q.id != p.id)).map
      PointStruct.id).Nodup := List.Nodup.sublist hsub h
  unfold pointIds upsertPoint
  simp only [List.map_append, List.map_cons, List.map_nil]
  refine List.Nodup.append h1 (by simp) ?_
  intro x hx1 hx2
  simp only [List.mem_singleton] at hx2
  obtain ⟨q, hq, rfl⟩ := List.mem_map.mp hx1
  have hne := (List.mem_filter.mp hq).2
  rw [bne_iff_ne] at hne
  exact hne hx2

theorem nodup_pointIds_clientUpsert (c : Collection) (p : PointStruct)
    (h : (pointIds c).Nodup) : (pointIds (clientUpsert c p)).Nodup := by
  by_cases hc : p.vector.length = c.size
  · simpa [clientUpsert, hc] using nodup_pointIds_upsertPoint c p h
  · simpa [clientUpsert, hc] using h

theorem idFinset_upsertPoint (c : Collection) (p : PointStruct) :
    idFinset (upsertPoint c p) = insert p.id (idFinset c) := by
  ext x
  simp only [idFinset, upsertPoint, List.map_append, List.map_cons,
    List.map_nil, List.toFinset_append, Finset.mem_union, List.mem_toFinset,
    List.mem_map, List.mem_filter, bne_iff_ne, Finset.mem_insert,
    List.toFinset_cons, List.toFinset_nil, insert_emptyc_eq,
    Finset.mem_singleton]
  by_cases hx : x = p.id
  · simp [hx]
  · constructor
    · rintro (⟨q, ⟨hq, _⟩, rfl⟩ | rfl)
      · exact Or.inr ⟨q, hq, rfl⟩
      · exact Or.inl rfl
    · rintro (rfl | ⟨q, hq, rfl⟩)
      · exact Or.inr rfl
      · exact Or.inl ⟨q, ⟨hq, fun hh => hx hh⟩, rfl⟩

theorem idFinset_clientUpsert (c : Collection) (p : PointStruct) :
    idFinset (clientUpsert c p) =
      if p.vector.length = c.size then insert p.id (idFinset c)
      else idFinset c := by
  by_cases hc : p.vector.length = c.size <;>
    simp [clientUpsert, hc, idFinset_upsertPoint]

theorem size_ingestChunkStep (strHash : String → ℤ)
    (embed : List Char → Option (List ℚ)) (fp : String) (c : Collection)
    (ic : ℕ × List Char) :
    (ingestChunkStep strHash embed fp c ic).size = c.size := by
  cases hemb : embed ic.2 <;>
    simp [ingestChunkStep, hemb, size_clientUpsert]

theorem size_foldl_chunk (strHash : String → ℤ)
    (embed : List Char → Option (List ℚ)) (fp : String)
    (pairs : List (ℕ × List Char)) :
    ∀ c : Collection,
      (pairs.foldl (ingestChunkStep strHash embed fp) c).size = c.size := by
  induction pairs with
  | nil => intro c; rfl
  | cons ic rest ih =>
      intro c
      rw [List.foldl_cons, ih (ingestChunkStep strHash embed fp c ic)]
      exact size_ingestChunkStep strHash embed fp c ic

theorem nodup_foldl_chunk (strHash : String → ℤ)
    (embed : List Char → Option (List ℚ)) (fp : String)
    (pairs : List (ℕ × List Char)) :
    ∀ c : Collection, (pointIds c).Nodup →
      (pointIds (pairs.foldl (ingestChunkStep strHash embed fp) c)).Nodup := by
  induction pairs with
  | nil => intro c h; exact h
  | cons ic rest ih =>
      intro c h
      rw [List.foldl_cons]
      refine ih _ ?_
      cases hemb : embed ic.2 <;> simp [ingestChunkStep, hemb]
      · exact h
      · exact nodup_pointIds_clientUpsert c _ h

theorem idFinset_foldl_chunk (strHash : String → ℤ)
    (embed : List Char → Option (List ℚ)) (fp : String)
    (pairs : List (ℕ × List Char)) :
    ∀ c : Collection,
      idFinset (pairs.foldl (ingestChunkStep strHash embed fp) c) =
        idFinset c ∪ chunkIds strHash embed fp c.size pairs := by
  induction pairs with
  | nil => intro c; simp [chunkIds]
  | cons ic rest ih =>
      intro c
      rw [List.foldl_cons, ih (ingestChunkStep strHash embed fp c ic),
        size_ingestChunkStep strHash embed fp c ic]
      cases hemb : embed ic.2 with
      | none =>
          simp [ingestChunkStep, hemb, chunkIds, List.filterMap_cons]
      | some e =>
          by_cases hlen : e.length = c.size
          · simp only [ingestChunkStep, hemb, idFinset_clientUpsert, hlen,
              if_pos, chunkIds, List.filterMap_cons, List.toFinset_cons]
            rw [Finset.insert_union, Finset.union_insert]
          · simp [ingestChunkStep, hemb, idFinset_clientUpsert, hlen,
              chunkIds, List.filterMap_cons]

theorem size_ingestFile (strHash : String → ℤ)
    (embed : List Char → Option (List ℚ)) (c : Collection) (fp : String)
    (content : List Char) :
    (ingestFile strHash embed c fp content).size = c.size := by
  unfold ingestFile
  cases hct : chunk_text content 300 50 with
  | none => rfl
  | some chunks => exact size_foldl_chunk strHash embed fp chunks.enum c

theorem nodup_ingestFile (strHash : String → ℤ)
    (embed : List Char → Option (List ℚ)) (c : Collection) (fp : String)
    (content : List Char) (h : (pointIds c).Nodup) :
    (pointIds (ingestFile strHash embed c fp content)).Nodup := by
  unfold ingestFile
  cases hct : chunk_text content 300 50 with
  | none => exact h
  | some chunks => exact nodup_foldl_chunk strHash embed fp chunks.enum c h

theorem idFinset_ingestFile (strHash : String → ℤ)
    (embed : List Char → Option (List ℚ)) (c : Collection) (fp : String)
    (content : List Char) :
    idFinset (ingestFile strHash embed c fp content) =
      idFinset c ∪ fileIds strHash embed c.size (fp, content) := by
  unfold ingestFile fileIds
  cases hct : chunk_text content 300 50 with
  | none => simp
  | some chunks => exact idFinset_foldl_chunk strHash embed fp chunks.enum c

theorem size_ingest_transcripts (strHash : String → ℤ)
    (embed : List Char → Option (List ℚ)) (files : List (String × List Char)) :
    ∀ c : Collection, (ingest_transcripts strHash embed files c).size = c.size := by
  induction files with
  | nil => intro c; rfl
  | cons f rest ih =>
      intro c
      unfold ingest_transcripts
      rw [List.foldl_cons]
      have := ih (ingestFile strHash embed c f.1 f.2)
      unfold ingest_transcripts at this
      rw [this]
      exact size_ingestFile strHash embed c f.1 f.2

theorem nodup_ingest_transcripts (strHash : String → ℤ)
    (embed : List Char → Option (List ℚ)) (files : List (String × List Char)) :
    ∀ c : Collection, (pointIds c).Nodup →
      (pointIds (ingest_transcripts strHash embed files c)).Nodup := by
  induction files with
  | nil => intro c h; exact h
  | cons f rest ih =>
      intro c h
      unfold ingest_transcripts
      rw [List.foldl_cons]
      have := ih (ingestFile strHash embed c f.1 f.2)
        (nodup_ingestFile strHash embed c f.1 f.2 h)
      unfold ingest_transcripts at this
      exact this

theorem idFinset_ingest_transcripts (strHash : String → ℤ)
    (embed : List Char → Option (List ℚ)) (files : List (String × List Char)) :
    ∀ c : Collection,
      idFinset (ingest_transcripts strHash embed files c) =
        idFinset c ∪ filesIds strHash embed c.size files := by
  induction files with
  | nil => intro c; simp [ingest_transcripts, filesIds]
  | cons f rest ih =>
      intro c
      unfold ingest_transcripts
      rw [List.foldl_cons]
      have hih := ih (ingestFile strHash embed c f.1 f.2)
      unfold ingest_transcripts at hih
      rw [hih, size_ingestFile strHash embed c f.1 f.2,
        idFinset_ingestFile strHash embed c f.1 f.2]
      show _ = idFinset c ∪ filesIds strHash embed c.size (f :: rest)
      unfold filesIds
      rw [List.foldr_cons, Finset.union_assoc]

theorem pointCount_eq_card (c : Collection) (h : (pointIds c).Nodup) :
    pointCount c = (idFinset c).card := by
  unfold pointIds at h
  unfold pointCount idFinset
  rw [List.toFinset_card_of_nodup h, List.length_map]

/-- C2: running `ingest_transcripts` a second time on the same files, in
the same process (same string hash) and with the same embedding outcomes,
leaves the collection's point count unchanged: every id the second run
upserts is already present, so points are only overwritten, never added. -/
theorem ingest_transcripts_idempotent_count (strHash : String → ℤ)
    (embed : List Char → Option (List ℚ)) (files : List (String × List Char))
    (c : Collection) (hnd : (pointIds c).Nodup) :
    pointCount (ingest_transcripts strHash embed files
        (ingest_transcripts strHash embed files c)) =
      pointCount (ingest_transcripts strHash embed files c) := by
  have hnd1 := nodup_ingest_transcripts strHash embed files c hnd
  have hnd2 := nodup_ingest_transcripts strHash embed files
    (ingest_transcripts strHash embed files c) hnd1
  rw [pointCount_eq_card _ hnd2, pointCount_eq_card _ hnd1]
  rw [idFinset_ingest_transcripts strHash embed files
      (ingest_transcripts strHash embed files c),
    size_ingest_transcripts strHash embed files c,
    idFinset_ingest_transcripts strHash embed files c,
    Finset.union_assoc, Finset.union_self]

/-- Witness for `ingest_transcripts_idempotent_count`: one two-word file
into an empty 2-dimensional collection. -/
theorem ingest_transcripts_idempotent_count_witness :
    pointCount (ingest_transcripts (fun s => (s.length : ℤ))
        (fun _ => some [0, 0]) [("a.txt", "x y".toList)]
        (ingest_transcripts (fun s => (s.length : ℤ))
          (fun _ => some [0, 0]) [("a.txt", "x y".toList)] ⟨2, []⟩)) =
      pointCount (ingest_transcripts (fun s => (s.length : ℤ))
        (fun _ => some [0, 0]) [("a.txt", "x y".toList)] ⟨2, []⟩) :=
  ingest_transcripts_idempotent_count (fun s => (s.length : ℤ))
    (fun _ => some [0, 0]) [("a.txt", "x y".toList)] ⟨2, []⟩ (by decide)

/-- C2 counterexample: on the `robust_batch_ingest.py` path, re-running
ingestion is not count-preserving — a second invocation of
`run_robust_ingest` over a store holding one previously ingested point
leaves zero points (the `QdrantDB` constructor recreates the collection
before the script crashes on the missing `get_ingested_files` method), so
the point count drops from 1 to 0 instead of staying unchanged. -/
theorem run_robust_reingest_counterexample :
    (getCollection
        ⟨false, [("transcripts", ⟨384, [⟨2, ['a'], "b.txt", [1]⟩]⟩)]⟩
        "transcripts").map pointCount = some 1 ∧
    (getCollection (run_robust_ingest
        ⟨false, [("transcripts", ⟨384, [⟨2, ['a'], "b.txt", [1]⟩]⟩)]⟩)
        "transcripts").map pointCount = some 0 := by
  decide

/-! ### C3: point ids are not stable across process invocations -/

/-- C3: the id — the Python `hash` of `file_path + "_" + str(i)` — depends on the process's salted
string hash, not only on the `(source, sequence_index)` pair: two process
invocations whose string-hash functions differ assign different ids to the
very same chunk of the very same file.  `robust_batch_ingest.py`'s counter
id likewise differs for the same file depending on prior ingestion
history. -/
theorem pointId_not_process_stable :
    pointIdChat (fun s => (s.length : ℤ)) "a.txt" 0 ≠
      pointIdChat (fun s => (s.length : ℤ) + 1) "a.txt" 0 ∧
    pointIdRobust 0 0 ≠ pointIdRobust 1 0 := by
  decide

/-! ### C6: retry policy under four timeouts then success -/

/-- C6: under the default policy (5 attempts, 90s base, 1.5x backoff,
jitter up to 20% of the current timeout), if the first four attempts time
out and the fifth returns a 768-dimensional embedding, then exactly that
one vector is returned, exactly 4 timed-out attempts are recorded, and
their adjusted timeout values are strictly increasing — for every
realization of the jitter within its bounds. -/
theorem ultra_robust_retry_behaviour (text : List Char) (v : List ℚ)
    (jitterAmt : ℕ → ℚ) (hv : v.length = 768)
    (hj : ∀ k, 0 ≤ jitterAmt k ∧ jitterAmt k ≤ 1 / 5 * (90 * (3 / 2) ^ k)) :
    (ultra_robust_embedding text
        (fun _ k => if k < 4 then EmbedOutcome.timeout
          else EmbedOutcome.response v) jitterAmt 5 90 (3 / 2)).1 = some v ∧
    ((ultra_robust_embedding text
        (fun _ k => if k < 4 then EmbedOutcome.timeout
          else EmbedOutcome.response v) jitterAmt 5 90 (3 / 2)).2.filter
        (fun e => e.2 == EmbedOutcome.timeout)).length = 4 ∧
    List.Chain' (· < ·)
      (((ultra_robust_embedding text
          (fun _ k => if k < 4 then EmbedOutcome.timeout
            else EmbedOutcome.response v) jitterAmt 5 90 (3 / 2)).2.filter
          (fun e => e.2 == EmbedOutcome.timeout)).map Prod.fst) := by
  have hne : v ≠ [] := by
    intro h
    rw [h] at hv
    simp at hv
  have hrange : List.range 5 = [0, 1, 2, 3, 4] := rfl
  have hbeq : (EmbedOutcome.response v == EmbedOutcome.timeout) = false := rfl
  simp only [ultra_robust_embedding, hrange, urLoop]
  norm_num [hne, hv, hbeq, List.chain'_cons, List.chain'_singleton]
  obtain ⟨hj0, hj0u⟩ := hj 0
  obtain ⟨hj1, hj1u⟩ := hj 1
  obtain ⟨hj2, hj2u⟩ := hj 2
  obtain ⟨hj3, hj3u⟩ := hj 3
  norm_num at hj0u hj1u hj2u hj3u
  repeat' apply And.intro
  all_goals linarith

/-- Witness for `ultra_robust_retry_behaviour`: zero jitter and the
all-zero 768-dimensional vector. -/
theorem ultra_robust_retry_behaviour_witness :
    (ultra_robust_embedding [] (fun _ k => if k < 4 then EmbedOutcome.timeout
        else EmbedOutcome.response (List.replicate 768 0)) (fun _ => 0) 5 90
        (3 / 2)).1 = some (List.replicate 768 0) ∧
    ((ultra_robust_embedding [] (fun _ k => if k < 4 then EmbedOutcome.timeout
        else EmbedOutcome.response (List.replicate 768 0)) (fun _ => 0) 5 90
        (3 / 2)).2.filter
        (fun e => e.2 == EmbedOutcome.timeout)).length = 4 ∧
    List.Chain' (· < ·)
      (((ultra_robust_embedding [] (fun _ k => if k < 4 then
            EmbedOutcome.timeout
          else EmbedOutcome.response (List.replicate 768 0)) (fun _ => 0) 5 90
          (3 / 2)).2.filter
          (fun e => e.2 == EmbedOutcome.timeout)).map Prod.fst) :=
  ultra_robust_retry_behaviour [] (List.replicate 768 0) (fun _ => 0)
    (List.length_replicate 768 0)
    (by intro k; refine ⟨le_refl 0, ?_⟩; positivity)

/-! ### C8: distinguishability of query outcomes -/

/-- C8 (amended): `ChatUI.generate_response` yields pairwise
distinguishable signals: the fixed error string when embedding the query
fails (`None` or empty), the fixed "no relevant information" string when
embedding succeeds but search returns nothing, and those two fixed strings
differ — so for this path a caller cannot confuse "no answer" with
"error".  (`chat.py::generate_response` does not: see the
counterexample.) -/
theorem generate_response_ui_signals (prompt : String) (v : List ℚ)
    (hits : List SearchHit) (llm : String → String) (hv : v ≠ []) :
    generate_response_ui prompt none hits llm =
      "Error: Could not process your question" ∧
    generate_response_ui prompt (some v) [] llm =
      "No relevant information found in the documents." ∧
    ("Error: Could not process your question" : String) ≠
      "No relevant information found in the documents." :=
  ⟨rfl, by simp [generate_response_ui, hv], by decide⟩

/-- Witness for `generate_response_ui_signals`. -/
theorem generate_response_ui_signals_witness :
    generate_response_ui "q" none [] (fun s => s) =
      "Error: Could not process your question" ∧
    generate_response_ui "q" (some [1]) [] (fun s => s) =
      "No relevant information found in the documents." ∧
    ("Error: Could not process your question" : String) ≠
      "No relevant information found in the documents." :=
  generate_response_ui_signals "q" [1] [] (fun s => s) (by simp)

/-- C8 counterexample: on the `chat.py` path the "no results meet the
threshold" situation is not distinguishable: with the query embedded
successfully, an empty search-result list produces exactly the same
response as a found result (one whose payload text and source basename are
empty), for the same generator — there is no "no relevant information
found" signal on this path. -/
theorem generate_response_py_confusable_counterexample :
    generate_response_py "q" (some [1]) [] (fun s => s) =
      generate_response_py "q" (some [1])
        [{ score := 0, text := "", source := "" }] (fun s => s) := rfl

/-! ### C9: formatted context length bound -/

theorem pyRsplitSpaceHead_length_le (t : List Char) :
    (pyRsplitSpaceHead t).length ≤ t.length := by
  unfold pyRsplitSpaceHead
  by_cases h : ' ' ∈ t
  · simp only [h, if_true, List.length_reverse]
    have h1 := (List.dropWhile_suffix (l := t.reverse)
      (fun c => c != ' ')).length_le
    have h2 : (t.reverse.dropWhile (fun c => c != ' ')).tail.length ≤
        (t.reverse.dropWhile (fun c => c != ' ')).length := by
      simp [List.length_tail]
    simp only [List.length_reverse] at h1
    omega
  · simp [h]

/-- C9: for every list of context texts and every `max_length ≥ 1`,
`format_context` returns at most `max_length + 3` characters: the
truncation branch keeps at most `max_length` characters (cut back to the
last space) and appends the 3-character `"..."`. -/
theorem format_context_length_le (texts : List (List Char))
    (max_length : ℕ) (_h : 1 ≤ max_length) :
    (format_context texts max_length).length ≤ max_length + 3 := by
  unfold format_context
  by_cases hlen : max_length < (List.intercalate ctxSep texts).length
  · simp only [hlen, if_true, List.length_append]
    have h1 := pyRsplitSpaceHead_length_le
      ((List.intercalate ctxSep texts).take max_length)
    have h2 : ((List.intercalate ctxSep texts).take max_length).length ≤
        max_length := by
      simp [List.length_take]
    have h3 : (['.', '.', '.'] : List Char).length = 3 := rfl
    omega
  · simp only [hlen, if_false]
    omega

/-- Witness for `format_context_length_le` at `max_length = 1`. -/
theorem format_context_length_le_witness :
    (format_context [['a', 'b']] 1).length ≤ 1 + 3 :=
  format_context_length_le [['a', 'b']] 1 (by norm_num)

end Knowledge
